import Mathlib

/-!
# Verification of the m2joy real-time translation core

A shallow embedding of the m2joy sources (`src/mouse.rs`, `src/main.rs`,
`src/virtual_pad.rs`, `src/config.rs`) and proofs about it.

Modelling conventions:
* Rust `i32` values are `ℤ` together with explicit two-complement wrapping
  (`wrap32`) where the source can overflow (`AtomicI32::fetch_add` wraps).
* Rust `f32` values (`ema_x`, `ema_y`, the scale factor) are modelled as `ℚ`
  with exact arithmetic; the literal `0.96` becomes the exact `24/25` and the
  snap test `ema.abs() < 0.5` becomes `2 * |num| < den`, a kernel-computable
  formulation that provably coincides with `|q| < 1/2` (`snapTest_iff`).
* The `Instant`/sleep pacing, logging text and the uinput device handle are
  external effects; calls to `VirtualPad::emit_stick` are recorded as the
  list of coordinate pairs passed per tick, and a failed device write is a
  counted warning.
-/

namespace M2joy

/-! ## i32 two-complement arithmetic (2^31 = 2147483648, 2^32 = 4294967296) -/

def I32_MIN : ℤ := -2147483648

def I32_MAX : ℤ := 2147483647

/-- Wrapping of an integer into the `i32` range, as `AtomicI32::fetch_add`
does on overflow. -/
def wrap32 (n : ℤ) : ℤ := (n + 2147483648) % 4294967296 - 2147483648

lemma wrap32_wrap32_add (a b : ℤ) : wrap32 (wrap32 a + b) = wrap32 (a + b) := by
  unfold wrap32; omega

lemma wrap32_idem (a : ℤ) : wrap32 (wrap32 a) = wrap32 a := by
  unfold wrap32; omega

/-! ## `src/mouse.rs`: the shared motion channel -/

/-- `MouseState` (mouse.rs lines 6-11): per-axis accumulated deltas plus the
two lifecycle flags. -/
structure MouseState where
  dx : ℤ
  dy : ℤ
  active : Bool
  quit : Bool
deriving DecidableEq

/-- `MouseState::new` (mouse.rs lines 14-21). -/
def MouseState.new : MouseState := ⟨0, 0, false, false⟩

/-- `MouseState::drain` (mouse.rs lines 24-28): `swap(0)` on each axis;
returns the pair read and the post-drain channel. -/
def MouseState.drain (s : MouseState) : (ℤ × ℤ) × MouseState :=
  ((s.dx, s.dy), { s with dx := 0, dy := 0 })

/-- One raw evdev event as classified by `MouseReader::run`
(mouse.rs lines 125-140): a relative-axis event on REL_X or REL_Y, a
relative event on any other axis, or a non-relative event. -/
inductive InputEvent
  | relX (v : ℤ)
  | relY (v : ℤ)
  | relOther (v : ℤ)
  | nonRel
deriving DecidableEq

/-- The body of the per-event loop in `MouseReader::run` (mouse.rs lines
125-140): non-relative events are ignored; for a relative event the loop
first checks `state.active` (discarding the event when inactive, written
here per branch) and then adds REL_X / REL_Y magnitudes into the channel
with a wrapping `fetch_add`. -/
def processEvent (s : MouseState) (ev : InputEvent) : MouseState :=
  match ev with
  | .relX v => if s.active then { s with dx := wrap32 (s.dx + v) } else s
  | .relY v => if s.active then { s with dy := wrap32 (s.dy + v) } else s
  | .relOther _ => s
  | .nonRel => s

/-- The `for ev in &events` loop over one fetched batch (or several
consecutive batches flattened, since no drain intervenes). -/
def processEvents : MouseState → List InputEvent → MouseState
  | s, [] => s
  | s, e :: evs => processEvents (processEvent s e) evs

/-- Sum of the REL_X magnitudes of a batch. -/
def sumRelX : List InputEvent → ℤ
  | [] => 0
  | .relX v :: evs => v + sumRelX evs
  | _ :: evs => sumRelX evs

/-- Sum of the REL_Y magnitudes of a batch. -/
def sumRelY : List InputEvent → ℤ
  | [] => 0
  | .relY v :: evs => v + sumRelY evs
  | _ :: evs => sumRelY evs

lemma processEvent_active (s : MouseState) (ev : InputEvent) :
    (processEvent s ev).active = s.active := by
  cases ev <;> simp only [processEvent] <;> split <;> rfl

lemma processEvent_inactive (s : MouseState) (ev : InputEvent)
    (h : s.active = false) : processEvent s ev = s := by
  cases ev <;> simp [processEvent, h]

lemma processEvents_wrapped (evs : List InputEvent) :
    ∀ s : MouseState, s.active = true →
      wrap32 s.dx = s.dx → wrap32 s.dy = s.dy →
      (processEvents s evs).dx = wrap32 (s.dx + sumRelX evs) ∧
      (processEvents s evs).dy = wrap32 (s.dy + sumRelY evs) := by
  induction evs with
  | nil =>
      intro s _ hx hy
      constructor
      · show s.dx = wrap32 (s.dx + sumRelX [])
        rw [show sumRelX [] = 0 from rfl, add_zero, hx]
      · show s.dy = wrap32 (s.dy + sumRelY [])
        rw [show sumRelY [] = 0 from rfl, add_zero, hy]
  | cons e evs ih =>
      intro s ha hx hy
      cases e with
      | relX v =>
          have hstep : processEvent s (.relX v) = { s with dx := wrap32 (s.dx + v) } := by
            simp [processEvent, ha]
          have hrec := ih { s with dx := wrap32 (s.dx + v) } ha (wrap32_idem _) hy
          constructor
          · show (processEvents (processEvent s (.relX v)) evs).dx = _
            rw [hstep, hrec.1, show sumRelX (.relX v :: evs) = v + sumRelX evs from rfl,
              wrap32_wrap32_add, add_assoc]
          · show (processEvents (processEvent s (.relX v)) evs).dy = _
            rw [hstep, hrec.2]
            rfl
      | relY v =>
          have hstep : processEvent s (.relY v) = { s with dy := wrap32 (s.dy + v) } := by
            simp [processEvent, ha]
          have hrec := ih { s with dy := wrap32 (s.dy + v) } ha hx (wrap32_idem _)
          constructor
          · show (processEvents (processEvent s (.relY v)) evs).dx = _
            rw [hstep, hrec.1]
            rfl
          · show (processEvents (processEvent s (.relY v)) evs).dy = _
            rw [hstep, hrec.2, show sumRelY (.relY v :: evs) = v + sumRelY evs from rfl,
              wrap32_wrap32_add, add_assoc]
      | relOther v =>
          have hrec := ih s ha hx hy
          exact ⟨hrec.1, hrec.2⟩
      | nonRel =>
          have hrec := ih s ha hx hy
          exact ⟨hrec.1, hrec.2⟩

/-- C1 (counterexample): two accumulated REL_X deltas of `i32::MAX` wrap in
the `AtomicI32`, so the drain returns `-2`, not the exact sum
`2147483647 + 2147483647 = 4294967294`. -/
theorem accumulate_overflow_not_exact_sum :
    ((processEvents ⟨0, 0, true, false⟩
        [.relX 2147483647, .relX 2147483647]).drain).1 = (-2, 0) ∧
      ((-2 : ℤ), (0 : ℤ)) ≠ (2147483647 + 2147483647, 0) := by
  constructor
  · decide
  · decide

/-- C1 (amended): from a freshly zeroed channel with capture active, any
batch of accumulate operations followed by one drain yields exactly the
per-axis vector sums reduced by i32 two-complement wrapping (hence the exact
sums whenever they fit in `i32`), and a second drain with no accumulate in
between returns `(0, 0)`. -/
theorem drain_eq_wrapped_sum (evs : List InputEvent) :
    ((processEvents ⟨0, 0, true, false⟩ evs).drain).1 =
        (wrap32 (sumRelX evs), wrap32 (sumRelY evs)) ∧
      ((((processEvents ⟨0, 0, true, false⟩ evs).drain).2).drain).1 = (0, 0) := by
  obtain ⟨hx, hy⟩ := processEvents_wrapped evs ⟨0, 0, true, false⟩ rfl (by decide) (by decide)
  constructor
  · show ((processEvents ⟨0, 0, true, false⟩ evs).dx,
        (processEvents ⟨0, 0, true, false⟩ evs).dy) = _
    rw [hx, hy]
    norm_num
  · rfl

/-- C9: relative-motion events processed while capture is not active leave
the accumulated totals untouched (mouse.rs lines 125-140: the loop
`continue`s on every relative event when `state.active` is false). -/
theorem inactive_motion_not_accumulated (evs : List InputEvent)
    (s : MouseState) (h : s.active = false) :
    (processEvents s evs).dx = s.dx ∧ (processEvents s evs).dy = s.dy := by
  induction evs generalizing s with
  | nil => exact ⟨rfl, rfl⟩
  | cons e evs ih =>
      show ((processEvents (processEvent s e) evs).dx = s.dx ∧
        (processEvents (processEvent s e) evs).dy = s.dy)
      rw [processEvent_inactive s e h]
      exact ih s h

/-- C9 witness: a REL_X, a REL_Y and a non-relative event arriving while
idle leave the channel totals `(5, 7)` unchanged. -/
theorem inactive_motion_not_accumulated_witness :
    ((⟨5, 7, false, false⟩ : MouseState).active = false) ∧
      (processEvents ⟨5, 7, false, false⟩
        [.relX 3, .relY (-2), .nonRel]).dx = 5 ∧
      (processEvents ⟨5, 7, false, false⟩
        [.relX 3, .relY (-2), .nonRel]).dy = 7 :=
  ⟨rfl, (inactive_motion_not_accumulated _ ⟨5, 7, false, false⟩ rfl).1,
    (inactive_motion_not_accumulated _ ⟨5, 7, false, false⟩ rfl).2⟩

/-! ## The control plane: the TOGGLE flag and the capture flip -/

/-- The control-plane state seen by the toggle path: the process-wide
`TOGGLE` atomic boolean (main.rs line 14) together with `MouseState.active`. -/
structure CtlState where
  toggle : Bool
  active : Bool
deriving DecidableEq

/-- `signal_handler` on SIGUSR1 (main.rs lines 221-226):
`TOGGLE.store(true)`. -/
def storeToggle (c : CtlState) : CtlState := { c with toggle := true }

/-- The toggle consume-and-flip at the top of `MouseReader::run`
(mouse.rs lines 88-106): `compare_exchange(true, false)` succeeds exactly
when the flag is set, and then `active` is flipped (grab/ungrab side
effects on the device are external). -/
def checkToggle (c : CtlState) : CtlState :=
  if c.toggle then { toggle := false, active := !c.active } else c

/-- C3 (counterexample): from released state, two toggle requests with no
intervening capture-loop iteration coalesce in the single `TOGGLE` bit; the
next iteration consumes it once and GRABS the mouse — the state does not
return to its original value, so the double toggle is not a no-op. -/
theorem double_toggle_not_noop :
    (checkToggle (storeToggle (storeToggle ⟨false, false⟩))).active = true ∧
      ¬((checkToggle (storeToggle (storeToggle ⟨false, false⟩))).active =
        (⟨false, false⟩ : CtlState).active) := by
  constructor
  · decide
  · decide

/-- C3 (amended): two toggle requests delivered with no intervening
capture-loop iteration coalesce into one pending request: the next
iteration flips the capture state exactly once (to the opposite of the
original), clears the flag, and a further iteration with no new request
changes nothing. -/
theorem double_toggle_single_flip (c : CtlState) :
    (checkToggle (storeToggle (storeToggle c))).active = !c.active ∧
      (checkToggle (storeToggle (storeToggle c))).toggle = false ∧
      checkToggle (checkToggle (storeToggle (storeToggle c))) =
        checkToggle (storeToggle (storeToggle c)) := by
  obtain ⟨t, a⟩ := c
  cases t <;> cases a <;> exact ⟨rfl, rfl, rfl⟩

/-! ## `src/main.rs`: the EMA smoothing step (lines 17-22 and 146-151) -/

/-- `BASE_SCALE` (main.rs line 17). -/
def BASE_SCALE : ℚ := 2400

/-- `EMA_DECAY` (main.rs line 22): the f32 literal `0.96` modelled as the
exact rational `24/25`. -/
def EMA_DECAY : ℚ := 24/25

/-- One per-axis EMA update (main.rs lines 146-151): decay the old value,
add the new contribution at full weight, then snap to exactly zero when the
magnitude is below `0.5`. The snap test `|e2| < 1/2` is written as the
kernel-computable `2 * |e2.num| < e2.den`; `snapTest_iff` below proves the
two forms equivalent. -/
def emaStep (e add : ℚ) : ℚ :=
  if 2 * (e * EMA_DECAY + add).num.natAbs < (e * EMA_DECAY + add).den then 0
  else e * EMA_DECAY + add

lemma snapTest_iff (q : ℚ) : 2 * q.num.natAbs < q.den ↔ |q| < 1/2 := by
  have hden : (0 : ℚ) < (q.den : ℚ) := by exact_mod_cast q.den_pos
  have habs : |q| = (q.num.natAbs : ℚ) / (q.den : ℚ) := by
    conv_lhs => rw [← Rat.num_div_den q]
    rw [abs_div, abs_of_pos hden, Int.cast_natAbs, Int.cast_abs]
  rw [habs, div_lt_iff₀ hden]
  constructor
  · intro h
    have h2 : ((2 * q.num.natAbs : ℕ) : ℚ) < ((q.den : ℕ) : ℚ) := by exact_mod_cast h
    push_cast at h2
    linarith
  · intro h
    have h2 : ((2 * q.num.natAbs : ℕ) : ℚ) < ((q.den : ℕ) : ℚ) := by push_cast; linarith
    exact_mod_cast h2

lemma emaStep_eq_ite (e add : ℚ) :
    emaStep e add =
      if |e * EMA_DECAY + add| < 1/2 then 0 else e * EMA_DECAY + add := by
  unfold emaStep
  by_cases h : |e * EMA_DECAY + add| < 1/2
  · rw [if_pos ((snapTest_iff _).mpr h), if_pos h]
  · rw [if_neg fun hc => h ((snapTest_iff _).mp hc), if_neg h]

lemma emaStep_zero_or_big (e add : ℚ) :
    emaStep e add = 0 ∨ 1/2 ≤ |emaStep e add| := by
  rw [emaStep_eq_ite]
  by_cases h : |e * EMA_DECAY + add| < 1/2
  · rw [if_pos h]; exact Or.inl rfl
  · rw [if_neg h]; exact Or.inr (le_of_not_lt h)

lemma abs_emaStep_le (e add : ℚ) : |emaStep e add| ≤ |e| * EMA_DECAY + |add| := by
  rw [emaStep_eq_ite]
  by_cases h : |e * EMA_DECAY + add| < 1/2
  · rw [if_pos h, abs_zero]
    have h1 : (0 : ℚ) ≤ |e| * EMA_DECAY := by
      apply mul_nonneg (abs_nonneg e)
      norm_num [EMA_DECAY]
    have h2 : (0 : ℚ) ≤ |add| := abs_nonneg add
    linarith
  · rw [if_neg h]
    calc |e * EMA_DECAY + add| ≤ |e * EMA_DECAY| + |add| := abs_add _ _
      _ = |e| * EMA_DECAY + |add| := by
          rw [abs_mul, abs_of_pos (by norm_num [EMA_DECAY] : (0:ℚ) < EMA_DECAY)]

/-- The filter state along ticks whose drained delta is `(0, 0)`
(per axis): `zeroTicks n e` is the EMA value after `n` such ticks starting
from value `e`. -/
def zeroTicks : ℕ → ℚ → ℚ
  | 0, e => e
  | n + 1, e => zeroTicks n (emaStep e 0)

lemma zeroTicks_succ_last (n : ℕ) (e : ℚ) :
    zeroTicks (n + 1) e = emaStep (zeroTicks n e) 0 := by
  induction n generalizing e with
  | zero => rfl
  | succ n ih =>
      show zeroTicks (n + 1) (emaStep e 0) = emaStep (zeroTicks (n + 1) e) 0
      rw [ih (emaStep e 0)]
      rfl

lemma abs_zeroTicks_le (n : ℕ) (e : ℚ) :
    |zeroTicks n e| ≤ |e| * EMA_DECAY ^ n := by
  induction n generalizing e with
  | zero => simp [zeroTicks]
  | succ n ih =>
      have hq : (0 : ℚ) ≤ EMA_DECAY := by norm_num [EMA_DECAY]
      show |zeroTicks n (emaStep e 0)| ≤ _
      calc |zeroTicks n (emaStep e 0)| ≤ |emaStep e 0| * EMA_DECAY ^ n := ih _
        _ ≤ (|e| * EMA_DECAY + |(0:ℚ)|) * EMA_DECAY ^ n :=
            mul_le_mul_of_nonneg_right (abs_emaStep_le e 0) (pow_nonneg hq n)
        _ = |e| * EMA_DECAY ^ (n + 1) := by rw [abs_zero, add_zero]; ring

lemma emaStep_zero_zero : emaStep 0 0 = 0 := by
  rw [emaStep_eq_ite]
  norm_num

lemma zeroTicks_eventually_zero (e : ℚ) (n : ℕ) (h1 : 1 ≤ n)
    (h : |e| * EMA_DECAY ^ n < 1/2) : zeroTicks n e = 0 := by
  cases n with
  | zero => exact absurd h1 (by norm_num)
  | succ m =>
      have hb : |zeroTicks (m + 1) e| < 1/2 := lt_of_le_of_lt (abs_zeroTicks_le _ _) h
      have hd : zeroTicks (m + 1) e = 0 ∨ 1/2 ≤ |zeroTicks (m + 1) e| := by
        rw [zeroTicks_succ_last]
        exact emaStep_zero_or_big _ _
      rcases hd with h0 | hbig
      · exact h0
      · linarith

lemma zeroTicks_zero_after (e : ℚ) (m n : ℕ) (hmn : m ≤ n)
    (h0 : zeroTicks m e = 0) : zeroTicks n e = 0 := by
  induction n, hmn using Nat.le_induction with
  | base => exact h0
  | succ n _ ih => rw [zeroTicks_succ_last, ih, emaStep_zero_zero]

/-- C2: from any filter value of magnitude at most `2^40` (every reachable
EMA value is far below this: deltas are `i32` and the geometric series bounds
the EMA by `2^31 * 25 < 2^36`), one delta of `i32` magnitude followed by
`(0,0)` on every subsequent tick drives the filtered value to exactly `0`
within `1000` ticks, and it stays exactly `0` on all later ticks. -/
theorem idle_decay_converges_to_zero (e : ℚ) (d : ℤ) (hd : d ≠ 0)
    (hdb : |d| ≤ 2147483648) (heb : |e| ≤ 1099511627776) :
    ∀ n, 1000 ≤ n → zeroTicks n (emaStep e (d : ℚ)) = 0 := by
  intro n hn
  have hdq : |(d : ℚ)| ≤ 2147483648 := by
    have h2 : ((|d| : ℤ) : ℚ) ≤ ((2147483648 : ℤ) : ℚ) := by exact_mod_cast hdb
    rw [Int.cast_abs] at h2
    exact_mod_cast h2
  have h1 : |emaStep e (d : ℚ)| ≤ 2199023255552 := by
    have h2 := abs_emaStep_le e (d : ℚ)
    have h3 : |e| * EMA_DECAY ≤ 1099511627776 * 1 := by
      apply mul_le_mul heb (by norm_num [EMA_DECAY]) (by norm_num [EMA_DECAY]) (by norm_num)
    linarith
  have hzero : zeroTicks 1000 (emaStep e (d : ℚ)) = 0 := by
    apply zeroTicks_eventually_zero _ _ (by norm_num)
    have hp : (0 : ℚ) ≤ EMA_DECAY ^ 1000 := pow_nonneg (by norm_num [EMA_DECAY]) _
    calc |emaStep e (d : ℚ)| * EMA_DECAY ^ 1000
        ≤ 2199023255552 * EMA_DECAY ^ 1000 := mul_le_mul_of_nonneg_right h1 hp
      _ < 1/2 := by norm_num [EMA_DECAY]
  exact zeroTicks_zero_after _ 1000 n hn hzero

/-- C2 witness: delta `10` from a settled filter reaches exactly `0` by
tick `1000`. -/
theorem idle_decay_converges_to_zero_witness :
    ((10 : ℤ) ≠ 0) ∧ |(10 : ℤ)| ≤ 2147483648 ∧ |(0 : ℚ)| ≤ 1099511627776 ∧
      zeroTicks 1000 (emaStep 0 ((10 : ℤ) : ℚ)) = 0 :=
  ⟨by norm_num, by norm_num, by norm_num,
    idle_decay_converges_to_zero 0 10 (by norm_num) (by norm_num) (by norm_num)
      1000 (by norm_num)⟩

/-! ## `src/virtual_pad.rs`: the emission sink -/

/-- `STICK_MIN` (virtual_pad.rs line 4). -/
def STICK_MIN : ℤ := -32767

/-- `STICK_MAX` (virtual_pad.rs line 5). -/
def STICK_MAX : ℤ := 32767

/-- Rust `i32::clamp(lo, hi)`. -/
def rustClamp (v lo hi : ℤ) : ℤ := if v < lo then lo else if v > hi then hi else v

/-- `VirtualPad::emit_stick` (virtual_pad.rs lines 54-62): the coordinate
pair actually written to the virtual device for arguments `(x, y)` — both
components clamped to the declared axis range before the write. -/
def emit_stick (x y : ℤ) : ℤ × ℤ :=
  (rustClamp x STICK_MIN STICK_MAX, rustClamp y STICK_MIN STICK_MAX)

/-- Truncation of a rational toward zero, as Rust float-to-int conversion
rounds. -/
def ratTrunc (q : ℚ) : ℤ := if 0 ≤ q then ⌊q⌋ else ⌈q⌉

/-- Rust `as i32` applied to an f32 value (main.rs lines 153-154): a
saturating cast — truncate toward zero, then saturate at the `i32` bounds
(never wraps). -/
def f32ToI32 (q : ℚ) : ℤ := max I32_MIN (min I32_MAX (ratTrunc q))

/-! ## `src/main.rs`: the tick loop (lines 125-202) -/

/-- The tick-loop mutable state (main.rs lines 113-116): the two EMA
accumulators and the previously computed scaled pair. -/
structure LoopState where
  ema_x : ℚ
  ema_y : ℚ
  prev_sx : ℤ
  prev_sy : ℤ
deriving DecidableEq

/-- The observable outcome of one tick: the new loop state, the list of
coordinate pairs passed to `pad.emit_stick` during the tick, and the number
of `Failed to emit stick` warnings logged. -/
structure TickOut where
  state : LoopState
  calls : List (ℤ × ℤ)
  warns : ℕ
deriving DecidableEq

/-- One iteration of the active branch of the tick loop (main.rs lines
132-163): drain gave `d`, both axes are advanced by `emaStep` (the y delta
is premultiplied by `y_sign`), the scaled values are cast with `as i32`,
and the sink is called only when the scaled pair differs from
`(prev_sx, prev_sy)`; `prev` is updated whenever the sink is called, whether
or not the device write succeeded (`writeOk`); a failed write only logs a
warning. -/
def activeTick (scale ysgn : ℚ) (writeOk : Bool) (s : LoopState) (d : ℤ × ℤ) : TickOut :=
  if f32ToI32 (emaStep s.ema_x (d.1 : ℚ) * scale) ≠ s.prev_sx ∨
      f32ToI32 (emaStep s.ema_y ((d.2 : ℚ) * ysgn) * scale) ≠ s.prev_sy then
    { state := ⟨emaStep s.ema_x (d.1 : ℚ), emaStep s.ema_y ((d.2 : ℚ) * ysgn),
        f32ToI32 (emaStep s.ema_x (d.1 : ℚ) * scale),
        f32ToI32 (emaStep s.ema_y ((d.2 : ℚ) * ysgn) * scale)⟩,
      calls := [(f32ToI32 (emaStep s.ema_x (d.1 : ℚ) * scale),
        f32ToI32 (emaStep s.ema_y ((d.2 : ℚ) * ysgn) * scale))],
      warns := if writeOk then 0 else 1 }
  else
    { state := ⟨emaStep s.ema_x (d.1 : ℚ), emaStep s.ema_y ((d.2 : ℚ) * ysgn),
        s.prev_sx, s.prev_sy⟩,
      calls := [], warns := 0 }

/-- One iteration of the inactive branch of the tick loop (main.rs lines
187-196): when any of the filter values or the previous scaled pair is
non-zero, everything is reset and the neutral center is emitted once (its
result deliberately ignored by the source, hence no warning); otherwise the
tick does nothing. -/
def idleTick (s : LoopState) : TickOut :=
  if s.ema_x ≠ 0 ∨ s.ema_y ≠ 0 ∨ s.prev_sx ≠ 0 ∨ s.prev_sy ≠ 0 then
    { state := ⟨0, 0, 0, 0⟩, calls := [(0, 0)], warns := 0 }
  else
    { state := s, calls := [], warns := 0 }

/-- C4 (counterexample): if capture is toggled off while the filter state
and the previous scaled pair are all zero (for example toggled on and off
again with no motion in between), the first idle tick emits nothing — not
the one guaranteed `(0,0)` emission the claim demands for a transition
regardless of filter state. -/
theorem idle_centered_emits_nothing :
    (idleTick ⟨0, 0, 0, 0⟩).calls = [] ∧
      (idleTick ⟨0, 0, 0, 0⟩).calls ≠ [(0, 0)] := by
  constructor <;> norm_num [idleTick]

/-- C4 (amended): when capture turns idle with any non-zero filter value or
previous scaled pair, the next idle tick emits the neutral pair exactly
once and fully resets the loop state; every further idle tick (now
centered) emits nothing. When the state was already centered at the
transition, no emission happens at all. -/
theorem idle_transition_single_center_emit (s : LoopState)
    (h : s.ema_x ≠ 0 ∨ s.ema_y ≠ 0 ∨ s.prev_sx ≠ 0 ∨ s.prev_sy ≠ 0) :
    (idleTick s).calls = [(0, 0)] ∧ (idleTick s).state = ⟨0, 0, 0, 0⟩ ∧
      (idleTick (idleTick s).state).calls = [] := by
  have h1 : idleTick s = ⟨⟨0, 0, 0, 0⟩, [(0, 0)], 0⟩ := by
    unfold idleTick
    rw [if_pos h]
  rw [h1]
  refine ⟨rfl, rfl, ?_⟩
  norm_num [idleTick]

/-- C4 witness: deactivating with filter value `1` on the x axis emits
`(0,0)` once and the following idle tick emits nothing. -/
theorem idle_transition_single_center_emit_witness :
    ((⟨1, 0, 0, 0⟩ : LoopState).ema_x ≠ 0 ∨
        (⟨1, 0, 0, 0⟩ : LoopState).ema_y ≠ 0 ∨
        (⟨1, 0, 0, 0⟩ : LoopState).prev_sx ≠ 0 ∨
        (⟨1, 0, 0, 0⟩ : LoopState).prev_sy ≠ 0) ∧
      (idleTick ⟨1, 0, 0, 0⟩).calls = [(0, 0)] ∧
      (idleTick (idleTick ⟨1, 0, 0, 0⟩).state).calls = [] := by
  have h : (⟨1, 0, 0, 0⟩ : LoopState).ema_x ≠ 0 ∨
      (⟨1, 0, 0, 0⟩ : LoopState).ema_y ≠ 0 ∨
      (⟨1, 0, 0, 0⟩ : LoopState).prev_sx ≠ 0 ∨
      (⟨1, 0, 0, 0⟩ : LoopState).prev_sy ≠ 0 := Or.inl (by norm_num)
  have h2 := idle_transition_single_center_emit ⟨1, 0, 0, 0⟩ h
  exact ⟨h, h2.1, h2.2.2⟩

/-- C5 (counterexample): with `scale = 2400`, a delta of `100` makes the
scaled pair `(240000, 0)`, written (after clamping) as `(32767, 0)`; the
next tick decays to `96`, scaled pair `(230400, 0)` — it still clamps to
the very same boundary write `(32767, 0)`, yet the sink IS called again,
because the change guard compares the pre-clamp values `230400 ≠ 240000`. -/
theorem boundary_reclamp_double_emit :
    (activeTick 2400 1 true ⟨0, 0, 0, 0⟩ (100, 0)).calls.map
        (fun c => emit_stick c.1 c.2) = [(32767, 0)] ∧
      (activeTick 2400 1 true
          (activeTick 2400 1 true ⟨0, 0, 0, 0⟩ (100, 0)).state (0, 0)).calls.map
        (fun c => emit_stick c.1 c.2) = [(32767, 0)] ∧
      (activeTick 2400 1 true
          (activeTick 2400 1 true ⟨0, 0, 0, 0⟩ (100, 0)).state (0, 0)).calls ≠ [] := by
  have h1 : activeTick 2400 1 true ⟨0, 0, 0, 0⟩ (100, 0) =
      ⟨⟨100, 0, 240000, 0⟩, [(240000, 0)], 0⟩ := by
    norm_num [activeTick, emaStep, f32ToI32, ratTrunc, EMA_DECAY, I32_MIN, I32_MAX]
  have h2 : activeTick 2400 1 true ⟨100, 0, 240000, 0⟩ (0, 0) =
      ⟨⟨96, 0, 230400, 0⟩, [(230400, 0)], 0⟩ := by
    norm_num [activeTick, emaStep, f32ToI32, ratTrunc, EMA_DECAY, I32_MIN, I32_MAX]
  rw [h1]
  have h3 : (⟨⟨100, 0, 240000, 0⟩, [(240000, 0)], 0⟩ : TickOut).state =
      ⟨100, 0, 240000, 0⟩ := rfl
  rw [h3, h2]
  refine ⟨?_, ?_, ?_⟩
  · show [emit_stick 240000 0] = [(32767, 0)]
    norm_num [emit_stick, rustClamp, STICK_MIN, STICK_MAX]
  · show [emit_stick 230400 0] = [(32767, 0)]
    norm_num [emit_stick, rustClamp, STICK_MIN, STICK_MAX]
  · norm_num

/-- C5 (amended): the change guard compares the pre-clamp scaled pair with
the previously recorded pre-clamp pair: on every active tick the sink is
called exactly when that pre-clamp pair differs from `(prev_sx, prev_sy)` —
so two consecutive ticks whose scaled values clamp to the same boundary
coordinate can both produce an emission. -/
theorem emit_guard_preclamp_iff (scale ysgn : ℚ) (ok : Bool) (s : LoopState)
    (d : ℤ × ℤ) :
    (activeTick scale ysgn ok s d).calls ≠ [] ↔
      (f32ToI32 (emaStep s.ema_x (d.1 : ℚ) * scale),
          f32ToI32 (emaStep s.ema_y ((d.2 : ℚ) * ysgn) * scale)) ≠
        (s.prev_sx, s.prev_sy) := by
  unfold activeTick
  by_cases h : f32ToI32 (emaStep s.ema_x (d.1 : ℚ) * scale) ≠ s.prev_sx ∨
      f32ToI32 (emaStep s.ema_y ((d.2 : ℚ) * ysgn) * scale) ≠ s.prev_sy
  · rw [if_pos h]
    simp only [ne_eq, Prod.mk.injEq, not_and]
    constructor
    · intro _ hx hy
      rcases h with hqx | hqy
      · exact hqx hx
      · exact hqy hy
    · intro _
      simp
  · rw [if_neg h]
    push_neg at h
    constructor
    · intro hc
      exact absurd rfl hc
    · intro hc
      exfalso
      exact hc (by rw [h.1, h.2])

/-- C6 (counterexample): with `scale = 2400` a delta of `10^7` saturates the
cast, so the scaled pair is `(2147483647, 0)`; the write fails (one warning)
but `prev` is updated anyway, and the next tick — whose scaled pair is the
SAME non-zero pair (the decayed EMA still saturates) — performs no sink call
at all, contradicting the claimed natural re-emission. -/
theorem failed_emit_same_pair_not_resent :
    (activeTick 2400 1 false ⟨0, 0, 0, 0⟩ (10000000, 0)).warns = 1 ∧
      (activeTick 2400 1 false ⟨0, 0, 0, 0⟩ (10000000, 0)).calls =
        [(2147483647, 0)] ∧
      f32ToI32 (emaStep (10000000 : ℚ) 0 * 2400) = 2147483647 ∧
      ((2147483647 : ℤ), (0 : ℤ)) ≠ (0, 0) ∧
      (activeTick 2400 1 true
        (activeTick 2400 1 false ⟨0, 0, 0, 0⟩ (10000000, 0)).state (0, 0)).calls = [] := by
  have h1 : activeTick 2400 1 false ⟨0, 0, 0, 0⟩ (10000000, 0) =
      ⟨⟨10000000, 0, 2147483647, 0⟩, [(2147483647, 0)], 1⟩ := by
    norm_num [activeTick, emaStep, f32ToI32, ratTrunc, EMA_DECAY, I32_MIN, I32_MAX]
  have h2 : activeTick 2400 1 true ⟨10000000, 0, 2147483647, 0⟩ (0, 0) =
      ⟨⟨9600000, 0, 2147483647, 0⟩, [], 0⟩ := by
    norm_num [activeTick, emaStep, f32ToI32, ratTrunc, EMA_DECAY, I32_MIN, I32_MAX]
  have h3 : f32ToI32 (emaStep (10000000 : ℚ) 0 * 2400) = 2147483647 := by
    norm_num [emaStep, f32ToI32, ratTrunc, EMA_DECAY, I32_MIN, I32_MAX]
  rw [h1]
  have h4 : (⟨⟨10000000, 0, 2147483647, 0⟩, [(2147483647, 0)], 1⟩ : TickOut).state =
      ⟨10000000, 0, 2147483647, 0⟩ := rfl
  rw [h4, h2]
  exact ⟨rfl, rfl, h3, by norm_num, rfl⟩

/-- C6 (amended): a failed device write changes nothing about the tick
except the logged warning: the resulting loop state (including the updated
`prev` pair) and the sequence of sink calls are identical to the successful
case, there is no retry within the tick, and exactly one warning is logged
per failed call; consequently the next tick re-emits only if its scaled
pair differs from the recorded one. -/
theorem emit_failure_keeps_state_and_calls (scale ysgn : ℚ) (s : LoopState)
    (d : ℤ × ℤ) :
    (activeTick scale ysgn false s d).state = (activeTick scale ysgn true s d).state ∧
      (activeTick scale ysgn false s d).calls = (activeTick scale ysgn true s d).calls ∧
      (activeTick scale ysgn false s d).warns =
        (activeTick scale ysgn true s d).calls.length := by
  unfold activeTick
  by_cases h : f32ToI32 (emaStep s.ema_x (d.1 : ℚ) * scale) ≠ s.prev_sx ∨
      f32ToI32 (emaStep s.ema_y ((d.2 : ℚ) * ysgn) * scale) ≠ s.prev_sy
  · rw [if_pos h]
    rw [if_pos h]
    exact ⟨rfl, rfl, rfl⟩
  · rw [if_neg h]
    rw [if_neg h]
    exact ⟨rfl, rfl, rfl⟩

lemma le_ratTrunc_of_le (q : ℚ) (m : ℤ) (hm : 0 ≤ m) (h : (m : ℚ) ≤ q) :
    m ≤ ratTrunc q := by
  unfold ratTrunc
  rw [if_pos (le_trans (by exact_mod_cast hm) h)]
  exact Int.le_floor.mpr h

lemma ratTrunc_le_of_le (q : ℚ) (m : ℤ) (hm : m < 0) (h : q ≤ (m : ℚ)) :
    ratTrunc q ≤ m := by
  unfold ratTrunc
  have hmq : (m : ℚ) < 0 := by exact_mod_cast hm
  rw [if_neg (fun h0 => lt_irrefl (0 : ℚ) (lt_of_le_of_lt (h0.trans h) hmq))]
  exact Int.ceil_le.mpr h

/-- C7: `emit_stick` writes exactly the componentwise clamp of its
arguments to `[-32767, 32767]`; and through the whole scaling pipeline,
a scaled value at or beyond the axis range is written exactly as the
boundary value — the `as i32` cast saturates and the clamp caps it, so no
wrap or overflow can reach the device. -/
theorem emit_stick_clamps_and_saturates (x y : ℤ) (q r : ℚ) :
    emit_stick x y = (max (-32767) (min 32767 x), max (-32767) (min 32767 y)) ∧
      (32767 ≤ q → (emit_stick (f32ToI32 q) (f32ToI32 r)).1 = 32767) ∧
      (q ≤ -32767 → (emit_stick (f32ToI32 q) (f32ToI32 r)).1 = -32767) ∧
      (32767 ≤ r → (emit_stick (f32ToI32 q) (f32ToI32 r)).2 = 32767) ∧
      (r ≤ -32767 → (emit_stick (f32ToI32 q) (f32ToI32 r)).2 = -32767) := by
  refine ⟨?_, ?_, ?_, ?_, ?_⟩
  · simp only [emit_stick, rustClamp, STICK_MIN, STICK_MAX, Prod.mk.injEq]
    constructor <;> split_ifs <;> omega
  · intro h
    have ht : (32767 : ℤ) ≤ ratTrunc q :=
      le_ratTrunc_of_le q 32767 (by norm_num) (by exact_mod_cast h)
    show rustClamp (f32ToI32 q) STICK_MIN STICK_MAX = 32767
    simp only [f32ToI32, rustClamp, STICK_MIN, STICK_MAX, I32_MIN, I32_MAX]
    split_ifs <;> omega
  · intro h
    have ht : ratTrunc q ≤ (-32767 : ℤ) :=
      ratTrunc_le_of_le q (-32767) (by norm_num) (by exact_mod_cast h)
    show rustClamp (f32ToI32 q) STICK_MIN STICK_MAX = -32767
    simp only [f32ToI32, rustClamp, STICK_MIN, STICK_MAX, I32_MIN, I32_MAX]
    split_ifs <;> omega
  · intro h
    have ht : (32767 : ℤ) ≤ ratTrunc r :=
      le_ratTrunc_of_le r 32767 (by norm_num) (by exact_mod_cast h)
    show rustClamp (f32ToI32 r) STICK_MIN STICK_MAX = 32767
    simp only [f32ToI32, rustClamp, STICK_MIN, STICK_MAX, I32_MIN, I32_MAX]
    split_ifs <;> omega
  · intro h
    have ht : ratTrunc r ≤ (-32767 : ℤ) :=
      ratTrunc_le_of_le r (-32767) (by norm_num) (by exact_mod_cast h)
    show rustClamp (f32ToI32 r) STICK_MIN STICK_MAX = -32767
    simp only [f32ToI32, rustClamp, STICK_MIN, STICK_MAX, I32_MIN, I32_MAX]
    split_ifs <;> omega

/-- C7 witness: arguments `(50000, -50000)` are written as the clamp, and
scaled values `240000` and `-240000` are written exactly as the boundary. -/
theorem emit_stick_clamps_and_saturates_witness :
    emit_stick 50000 (-50000) =
        (max (-32767) (min 32767 (50000 : ℤ)), max (-32767) (min 32767 (-50000 : ℤ))) ∧
      (emit_stick (f32ToI32 240000) (f32ToI32 (-240000))).1 = 32767 ∧
      (emit_stick (f32ToI32 240000) (f32ToI32 (-240000))).2 = -32767 := by
  obtain ⟨h1, h2, h3, h4, h5⟩ :=
    emit_stick_clamps_and_saturates 50000 (-50000) 240000 (-240000)
  exact ⟨h1, h2 (by norm_num), h5 (by norm_num)⟩

/-! ## `src/config.rs`: the clap-parsed configuration -/

/-- `Config` (config.rs lines 7-31): the parsed command-line values. clap
only parses them; no field is validated or clamped anywhere in the sources. -/
structure Config where
  sensitivity : ℚ
  invert_y : Bool
  device : Option String
  left_stick : Bool
  decay : ℚ
  debug : Bool

/-- `let scale = BASE_SCALE * config.sensitivity` (main.rs line 110). -/
def Config.scale (cfg : Config) : ℚ := BASE_SCALE * cfg.sensitivity

/-- `let y_sign = if config.invert_y { -1.0 } else { 1.0 }`
(main.rs line 111). -/
def Config.y_sign (cfg : Config) : ℚ := if cfg.invert_y then -1 else 1

/-- The decay constant actually used by the smoothing update (main.rs lines
146-147): the compile-time `EMA_DECAY`; `config.decay` is never read by the
loop. -/
def decayUsed (_cfg : Config) : ℚ := EMA_DECAY

/-- A run of active ticks under a configuration: the concatenated sequence
of coordinate pairs passed to the emission sink for a drained-delta
sequence (device writes succeeding). -/
def runTicks (cfg : Config) : LoopState → List (ℤ × ℤ) → List (ℤ × ℤ)
  | _, [] => []
  | s, d :: ds =>
      (activeTick (Config.scale cfg) (Config.y_sign cfg) true s d).calls ++
        runTicks cfg (activeTick (Config.scale cfg) (Config.y_sign cfg) true s d).state ds

/-- C8 (counterexample): a configuration with `sensitivity = -1` and
`decay = 0.3` is used exactly as parsed: the derived scale is `-2400` (not
positive), the pipeline emits with that negative scale, and the decay the
smoothing actually uses is the fixed `24/25` — the configured `0.3` is
neither clamped into `(0.5, 0.999)` nor used at all. -/
theorem config_unvalidated_negative_sensitivity :
    Config.scale ⟨-1, false, none, false, 3/10, false⟩ = -2400 ∧
      ¬(0 < (⟨-1, false, none, false, 3/10, false⟩ : Config).sensitivity) ∧
      runTicks ⟨-1, false, none, false, 3/10, false⟩ ⟨0, 0, 0, 0⟩ [(1, 0)] =
        [(-2400, 0)] ∧
      decayUsed ⟨-1, false, none, false, 3/10, false⟩ = 24/25 ∧
      (⟨-1, false, none, false, 3/10, false⟩ : Config).decay = 3/10 := by
  refine ⟨?_, ?_, ?_, ?_, ?_⟩
  · norm_num [Config.scale, BASE_SCALE]
  · norm_num
  · show (activeTick (Config.scale ⟨-1, false, none, false, 3/10, false⟩)
        (Config.y_sign ⟨-1, false, none, false, 3/10, false⟩) true ⟨0, 0, 0, 0⟩ (1, 0)).calls ++
        runTicks _ _ [] = [(-2400, 0)]
    have h1 : activeTick (-2400) 1 true ⟨0, 0, 0, 0⟩ (1, 0) =
        ⟨⟨1, 0, -2400, 0⟩, [(-2400, 0)], 0⟩ := by
      norm_num [activeTick, emaStep, f32ToI32, ratTrunc, EMA_DECAY, I32_MIN,
        I32_MAX, Int.ceil_neg]
    have hs : Config.scale ⟨-1, false, none, false, 3/10, false⟩ = -2400 := by
      norm_num [Config.scale, BASE_SCALE]
    have hy : Config.y_sign ⟨-1, false, none, false, 3/10, false⟩ = 1 := rfl
    rw [hs, hy, h1]
    rfl
  · rfl
  · rfl

/-- C8 (amended): no validation or clamping of the numeric parameters
happens before use: any parsed sensitivity (including non-positive values)
reaches the pipeline unchanged as `scale = 2400 * sensitivity`, and any
parsed decay is simply ignored — the smoothing uses the fixed constant
`0.96`, which does lie strictly inside `(0.5, 0.999)`. -/
theorem config_params_used_unvalidated (t u : ℚ) :
    ∃ cfg : Config, cfg.sensitivity = t ∧ cfg.decay = u ∧
      Config.scale cfg = 2400 * t ∧ decayUsed cfg = EMA_DECAY ∧
      1/2 < decayUsed cfg ∧ decayUsed cfg < 999/1000 := by
  refine ⟨⟨t, false, none, false, u, false⟩, rfl, rfl, rfl, rfl, ?_, ?_⟩ <;>
    norm_num [decayUsed, EMA_DECAY]

/-- C10: the emitted output sequence does not depend on `config.decay`: two
runs over the same drained-delta sequence whose configurations agree on
every field except possibly `decay` drive the sink identically, because the
smoothing uses only the compile-time `EMA_DECAY`. -/
theorem output_independent_of_decay (c1 c2 : Config) (s : LoopState)
    (ds : List (ℤ × ℤ)) (h1 : c1.sensitivity = c2.sensitivity)
    (h2 : c1.invert_y = c2.invert_y) (h3 : c1.device = c2.device)
    (h4 : c1.left_stick = c2.left_stick) (h5 : c1.debug = c2.debug) :
    runTicks c1 s ds = runTicks c2 s ds := by
  have hs : Config.scale c1 = Config.scale c2 := by
    unfold Config.scale
    rw [h1]
  have hy : Config.y_sign c1 = Config.y_sign c2 := by
    unfold Config.y_sign
    rw [h2]
  induction ds generalizing s with
  | nil => rfl
  | cons d ds ih =>
      show (activeTick (Config.scale c1) (Config.y_sign c1) true s d).calls ++
          runTicks c1 (activeTick (Config.scale c1) (Config.y_sign c1) true s d).state ds =
        (activeTick (Config.scale c2) (Config.y_sign c2) true s d).calls ++
          runTicks c2 (activeTick (Config.scale c2) (Config.y_sign c2) true s d).state ds
      rw [hs, hy, ih]

/-- C10 witness: two configurations differing only in `decay` (`0.95`
versus `0.5`) emit the same sequence on the delta sequence `[(3, 4)]`. -/
theorem output_independent_of_decay_witness :
    runTicks ⟨1, false, none, false, 95/100, false⟩ ⟨0, 0, 0, 0⟩ [(3, 4)] =
      runTicks ⟨1, false, none, false, 1/2, false⟩ ⟨0, 0, 0, 0⟩ [(3, 4)] :=
  output_independent_of_decay _ _ _ _ rfl rfl rfl rfl rfl

end M2joy
